import Mathlib

/-!
# Verification of the memory-card game state machine

A shallow embedding of `src/assets/js/memory-game.js`: the game-state object,
deck generation (Fisher–Yates shuffle over a fixed symbol pool), card-flip and
match-resolution logic, the 900 ms mismatch timeout callback, the pause/resume
timer, and best-score persistence in `localStorage`.

Modelling conventions:
* DOM card elements carry their state as CSS classes (`is-flipped`,
  `is-matched`); here a rendered card is a record combining the deck item with
  those two flags, and the selection references `state.firstCard` /
  `state.secondCard` (DOM element references in the source) are indices into
  the current deck, which is exactly how the code reads them back
  (`Number(card.dataset.index)`).
* `Date.now()` is an integer millisecond count, passed in explicitly as `now`.
* `Math.random()` returns a double in `[0,1)`; a double is an exact rational,
  so a draw is modelled as a numerator/denominator pair of naturals, and
  `Math.floor(r * (i + 1))` becomes exact natural division.
* `localStorage` values are `Option String`; JavaScript string truthiness
  (empty string is falsy) and `Number(...)` conversion are modelled
  explicitly: whitespace trimming, signed decimals with fraction and
  exponent, `Infinity`, the `0x`/`0o`/`0b` forms, and `NaN` on anything the
  grammar rejects, with finite values kept as exact rationals.
* Purely presentational effects (button labels, innerHTML, the stats text)
  are not part of the state; the `is-disabled` board class and the win
  indicator are kept as booleans because the click path reads them.
-/

/-- A JavaScript number as the best-score logic can meet it: `NaN` (from
`Number` on an unparsable string), `Infinity` (`inf false`) or `-Infinity`
(`inf true`), or a finite value `val num den`, the exact rational
`num / den`. The parser below only ever produces `den` a positive power of
ten; the game's own writes are naturals (`val m 1`). Values are kept exact
instead of being rounded to the nearest IEEE double; double overflow to
`Infinity` (`"1e400"`) and underflow to `0` are likewise not modelled — for
the comparisons this game makes (a completed game's positive move count
against the stored best) the verdicts coincide. -/
inductive JNum where
  | nan : JNum
  | inf : Bool → JNum
  | val : Int → Nat → JNum
deriving DecidableEq, Repr

/-- The `WhiteSpace` and `LineTerminator` characters that `Number` trims:
TAB, LF, VT, FF, CR, SP, NBSP, the Unicode `Zs` space separators, LS, PS and
ZWNBSP. -/
def isJsWhitespace (c : Char) : Bool :=
  let n := c.toNat
  n = 9 || n = 10 || n = 11 || n = 12 || n = 13 || n = 32 ||
  n = 0xA0 || n = 0x1680 || (0x2000 ≤ n && n ≤ 0x200A) ||
  n = 0x2028 || n = 0x2029 || n = 0x202F || n = 0x205F || n = 0x3000 || n = 0xFEFF

/-- Strip leading and trailing whitespace. -/
def jsTrim (cs : List Char) : List Char :=
  ((cs.dropWhile isJsWhitespace).reverse.dropWhile isJsWhitespace).reverse

/-- Decimal digit value of a character, if it is one. -/
def decDigit (c : Char) : Option Nat :=
  if 48 ≤ c.toNat ∧ c.toNat ≤ 57 then some (c.toNat - 48) else none

/-- Hexadecimal digit value of a character, if it is one. -/
def hexDigit (c : Char) : Option Nat :=
  let n := c.toNat
  if 48 ≤ n ∧ n ≤ 57 then some (n - 48)
  else if 97 ≤ n ∧ n ≤ 102 then some (n - 87)
  else if 65 ≤ n ∧ n ≤ 70 then some (n - 55)
  else none

/-- Octal digit value of a character, if it is one. -/
def octDigit (c : Char) : Option Nat :=
  if 48 ≤ c.toNat ∧ c.toNat ≤ 55 then some (c.toNat - 48) else none

/-- Binary digit value of a character, if it is one. -/
def binDigit (c : Char) : Option Nat :=
  if c.toNat = 48 then some 0 else if c.toNat = 49 then some 1 else none

/-- Take the longest digit prefix (under the digit reader `f`), returning the
digit values and the rest of the input. -/
def takeDigits (f : Char → Option Nat) : List Char → List Nat × List Char
  | [] => ([], [])
  | c :: cs =>
    match f c with
    | some d =>
      let p := takeDigits f cs
      (d :: p.1, p.2)
    | none => ([], c :: cs)

/-- Value of a digit-value list in the given base. -/
def digitsVal (base : Nat) (ds : List Nat) : Nat :=
  ds.foldl (fun acc d => acc * base + d) 0

/-- Assemble `sign · mantissa · 10^e10` as an exact `JNum.val`. -/
def mkDecimal (neg : Bool) (mantissa : Nat) (e10 : Int) : JNum :=
  let m : Int := if neg then -(mantissa : Int) else (mantissa : Int)
  if 0 ≤ e10 then JNum.val (m * (10 : Int) ^ e10.toNat) 1
  else JNum.val m ((10 : Nat) ^ (-e10).toNat)

/-- `ExponentPart` after the `e`/`E`: an optional sign and at least one
decimal digit, consuming the whole rest of the input. -/
def parseExponent (cs : List Char) : Option Int :=
  let p : Bool × List Char :=
    match cs with
    | '+' :: r => (false, r)
    | '-' :: r => (true, r)
    | _ => (false, cs)
  let q := takeDigits decDigit p.2
  if q.1.isEmpty || !q.2.isEmpty then none
  else some (if p.1 then -(digitsVal 10 q.1 : Int) else (digitsVal 10 q.1 : Int))

/-- `StrUnsignedDecimalLiteral` (the sign has already been consumed):
`Infinity`, or decimal digits with an optional fraction and exponent
(`12`, `1.`, `.5`, `1.2e-3`); anything else is `NaN`. -/
def parseUnsignedDec (neg : Bool) (cs : List Char) : JNum :=
  if cs = "Infinity".data then JNum.inf neg
  else
    let pInt := takeDigits decDigit cs
    let pFrac : List Nat × List Char :=
      match pInt.2 with
      | '.' :: rest => takeDigits decDigit rest
      | _ => ([], pInt.2)
    let exp : Option Int :=
      match pFrac.2 with
      | [] => some 0
      | c :: rest => if c = 'e' ∨ c = 'E' then parseExponent rest else none
    match exp with
    | none => JNum.nan
    | some e =>
      if pInt.1.isEmpty && pFrac.1.isEmpty then JNum.nan
      else mkDecimal neg (digitsVal 10 (pInt.1 ++ pFrac.1)) (e - pFrac.1.length)

/-- A `0x`/`0o`/`0b` literal body: at least one digit of the base, consuming
everything; no sign, fraction or exponent is allowed. -/
def parseRadix (f : Char → Option Nat) (base : Nat) (cs : List Char) : JNum :=
  let p := takeDigits f cs
  if p.1.isEmpty || !p.2.isEmpty then JNum.nan else JNum.val (digitsVal base p.1) 1

/-- `StrNumericLiteral`: a signed decimal / `Infinity`, or an unsigned
non-decimal integer literal. -/
def jsStrNumeric (cs : List Char) : JNum :=
  match cs with
  | '+' :: r => parseUnsignedDec false r
  | '-' :: r => parseUnsignedDec true r
  | '0' :: 'x' :: r => parseRadix hexDigit 16 r
  | '0' :: 'X' :: r => parseRadix hexDigit 16 r
  | '0' :: 'o' :: r => parseRadix octDigit 8 r
  | '0' :: 'O' :: r => parseRadix octDigit 8 r
  | '0' :: 'b' :: r => parseRadix binDigit 2 r
  | '0' :: 'B' :: r => parseRadix binDigit 2 r
  | _ => parseUnsignedDec false cs

/-- `Number(s)` for a string: trim whitespace, the empty remainder is `0`,
otherwise parse the `StrNumericLiteral` grammar (so `Number(" 12 ") = 12`,
`Number("-5") = -5`, `Number("1e2") = 100`, `Number("0x1F") = 31`,
`Number("Infinity") = Infinity`, and `Number("abc")` is `NaN`). -/
def jsNumber (s : String) : JNum :=
  let cs := jsTrim s.data
  if cs.isEmpty then JNum.val 0 1 else jsStrNumeric cs

/-- One leg of `loadBestScores`: `x ? Number(x) : null` applied to
`localStorage.getItem(...)`, which is `null` when the key is absent. A missing
value and the (falsy) empty string load as `null`; any other string goes
through `Number`. -/
def loadStoredBest (raw : Option String) : Option JNum :=
  match raw with
  | none => none
  | some s => if s = "" then none else some (jsNumber s)

/-- `state.bestScores`: one optional best per difficulty. -/
structure BestScores where
  easy : Option JNum
  hard : Option JNum
deriving DecidableEq, Repr

/-- `loadBestScores`: read both keys (`mgBestMoves_easy` / `mgBestMoves_hard`)
from storage. -/
def loadBestScores (rawEasy rawHard : Option String) : BestScores :=
  { easy := loadStoredBest rawEasy, hard := loadStoredBest rawHard }

/-- The two difficulty tiers offered by the selector. -/
inductive Difficulty where
  | easy : Difficulty
  | hard : Difficulty
deriving DecidableEq, Repr

/-- `state.bestScores[mode]`. -/
def getBest (b : BestScores) : Difficulty → Option JNum
  | Difficulty.easy => b.easy
  | Difficulty.hard => b.hard

/-- `state.bestScores[mode] = v`. -/
def setBest (b : BestScores) : Difficulty → Option JNum → BestScores
  | Difficulty.easy, v => { b with easy := v }
  | Difficulty.hard, v => { b with hard := v }

/-- JavaScript `state.moves < best`: exact rational comparison for a finite
best (`m < num/den ↔ m·den < num`, the parser's `den` being positive), `true`
against `Infinity`, `false` against `-Infinity` and against `NaN`; the `null`
case cannot be reached (it is short-circuited away), and would also be
`false` for a natural move count since `null` converts to `0`. -/
def jsLtBest (m : Nat) : Option JNum → Bool
  | some (JNum.val nu de) => decide ((m : Int) * (de : Int) < nu)
  | some (JNum.inf neg) => !neg
  | _ => false

/-- The decision-and-update core of `maybeUpdateBestScore`: given the stored
best for the current mode and the finished game's move count, return the new
stored best together with whether `localStorage.setItem` ran. The source
condition is `best === null || state.moves < best`; the stored value becomes
the plain number `state.moves`. -/
def maybeUpdateBest (best : Option JNum) (moves : Nat) : Option JNum × Bool :=
  if best.isNone || jsLtBest moves best then (some (JNum.val moves 1), true)
  else (best, false)

/-- One row of the `DIFFICULTIES` table. -/
structure DifficultyProfile where
  cols : Nat
  rows : Nat
  pairs : Nat
deriving DecidableEq, Repr

/-- `DIFFICULTIES`. -/
def DIFFICULTIES : Difficulty → DifficultyProfile
  | Difficulty.easy => ⟨4, 3, 6⟩
  | Difficulty.hard => ⟨6, 4, 12⟩

/-- One entry of `GAME_DATA`: a symbol name and its icon markup. -/
structure CardItem where
  name : String
  icon : String
deriving DecidableEq, Repr

/-- The fixed 12-symbol pool. -/
def GAME_DATA : List CardItem :=
  [ ⟨"Python", "bi bi-filetype-py"⟩,
    ⟨"SQL", "bi bi-database"⟩,
    ⟨"ML", "bi bi-robot"⟩,
    ⟨"Tableau", "bi bi-bar-chart-fill"⟩,
    ⟨"Docker", "bi bi-box"⟩,
    ⟨"Git", "bi bi-git"⟩,
    ⟨"Cloud", "bi bi-cloud-fill"⟩,
    ⟨"Excel", "bi bi-file-earmark-excel"⟩,
    ⟨"Code", "bi bi-code-slash"⟩,
    ⟨"Terminal", "bi bi-terminal-fill"⟩,
    ⟨"CPU", "bi bi-cpu-fill"⟩,
    ⟨"Diagram", "bi bi-diagram-3-fill"⟩ ]

/-- One `Math.random()` draw, as the exact rational `num / den`; a IEEE double
in `[0,1)` is such a rational with `num < den`. -/
structure RandDraw where
  num : Nat
  den : Nat
deriving DecidableEq, Repr

/-- `Math.floor(Math.random() * (i + 1))` for the draw `r` at loop index `i`:
`⌊(num/den) * (i+1)⌋ = num * (i+1) / den` in exact natural division. -/
def jsRandIndex (r : RandDraw) (i : Nat) : Nat :=
  r.num * (i + 1) / r.den

/-- The destructuring swap `[arr[i], arr[j]] = [arr[j], arr[i]]`. Out-of-range
indices never occur in the shuffle (the random index is at most `i`, itself
below the length); the identity fallback keeps the function total. -/
def listSwap {α : Type} (l : List α) (i j : Nat) : List α :=
  match l[i]?, l[j]? with
  | some a, some b => (l.set i b).set j a
  | _, _ => l

/-- The body of `shuffle`, counting the loop index down: the third argument is
the current loop index `i` (the loop runs while `i > 0`), and `k` numbers the
`Math.random()` calls consumed from the oracle `random`. -/
def shuffleAux {α : Type} (random : Nat → RandDraw) : List α → Nat → Nat → List α
  | l, _, 0 => l
  | l, k, i + 1 =>
      shuffleAux random (listSwap l (i + 1) (jsRandIndex (random k) (i + 1))) (k + 1) i

/-- `shuffle(arr)`: Fisher–Yates, `for (let i = arr.length - 1; i > 0; i--)`
swap `arr[i]` with `arr[Math.floor(Math.random() * (i + 1))]`. The in-place
mutation is value-passing here. -/
def shuffle {α : Type} (random : Nat → RandDraw) (l : List α) : List α :=
  shuffleAux random l 0 (l.length - 1)

/-- `generateDeck`: copy the pool, shuffle it, take the first `pairs` entries,
duplicate them (the `.map` spread-clone is the identity on values), and
shuffle the doubled list. Each of the two `shuffle` calls consumes fresh
`Math.random()` draws; the two segments of that stream are the oracles `r1`
and `r2`. -/
def generateDeck (r1 r2 : Nat → RandDraw) (d : Difficulty) : List CardItem :=
  let pairs := (DIFFICULTIES d).pairs
  let pool := GAME_DATA
  let shuffled := shuffle r1 pool
  let chosen := shuffled.take pairs
  shuffle r2 (chosen ++ chosen)

/-- A rendered card: the deck item plus the two CSS-class flags the code keeps
on the card's DOM element (`is-flipped`, `is-matched`). -/
structure Card where
  name : String
  icon : String
  flipped : Bool
  matched : Bool
deriving DecidableEq, Repr

/-- `renderBoard`: freshly rendered cards are face-down and unmatched. -/
def renderBoard (items : List CardItem) : List Card :=
  items.map (fun it => ⟨it.name, it.icon, false, false⟩)

/-- The module-level `state` object, together with the two DOM flags the logic
reads or sets (`board.classList` `is-disabled`, win-message `is-show`).
`timerInterval` records whether the interval handle is non-null; `firstCard`
and `secondCard` are the selected cards' deck indices (see the header). -/
structure GState where
  difficulty : Difficulty
  deck : List Card
  moves : Nat
  matchCount : Nat
  firstCard : Option Nat
  secondCard : Option Nat
  lockBoard : Bool
  gameStarted : Bool
  paused : Bool
  timerInterval : Bool
  startTime : Int
  elapsedMs : Int
  bestScores : BestScores
  boardDisabled : Bool
  winShown : Bool
deriving DecidableEq, Repr

/-- Update the card at index `i` (a classList change on that card's element);
identity when the index misses, which the game never does. -/
def modifyCard (l : List Card) (i : Nat) (f : Card → Card) : List Card :=
  match l[i]? with
  | some c => l.set i (f c)
  | none => l

/-- `tickTimer`'s `totalMs` at wall-clock `t`. -/
def tickTotalMs (t : Int) (s : GState) : Int :=
  s.elapsedMs + (t - s.startTime)

/-- `startTimer`: note the segment start and install the interval. -/
def startTimer (now : Int) (s : GState) : GState :=
  { s with startTime := now, timerInterval := true }

/-- `stopTimer`: early return when no interval is installed; otherwise clear
it and fold the finished segment into `elapsedMs`. -/
def stopTimer (now : Int) (s : GState) : GState :=
  if !s.timerInterval then s
  else { s with timerInterval := false, elapsedMs := s.elapsedMs + (now - s.startTime) }

/-- `resetTimer`: stop, then zero the accumulated time. -/
def resetTimer (now : Int) (s : GState) : GState :=
  let s1 := stopTimer now s
  { s1 with elapsedMs := 0 }

/-- `resetFlipState`. -/
def resetFlipState (s : GState) : GState :=
  { s with firstCard := none, secondCard := none, lockBoard := false }

/-- `endGame`: stop the timer, deactivate, disable the board, show the win
indicator, and run the best-score update for the current difficulty. -/
def endGame (now : Int) (s : GState) : GState :=
  let s1 := stopTimer now s
  let s2 := { s1 with gameStarted := false, paused := false,
                      boardDisabled := true, winShown := true }
  let upd := maybeUpdateBest (getBest s2.bestScores s2.difficulty) s2.moves
  { s2 with bestScores := setBest s2.bestScores s2.difficulty upd.1 }

/-- The fixed mismatch-resolution delay, in milliseconds. -/
def mismatchDelayMs : Nat := 900

/-- `checkMatch`. Result: the new state, whether `endGame` ran, and the delay
of a `setTimeout` scheduled by this step (`some 900` on a mismatch). The
selection indices are always valid here (`flipCard` just set them); the
fallback arms are unreachable. -/
def checkMatch (now : Int) (s : GState) : GState × Bool × Option Nat :=
  match s.firstCard, s.secondCard with
  | some i1, some i2 =>
    match s.deck[i1]?, s.deck[i2]? with
    | some c1, some c2 =>
      if c1.name = c2.name then
        let deck1 := modifyCard (modifyCard s.deck i1 (fun c => { c with matched := true }))
                       i2 (fun c => { c with matched := true })
        let s1 := resetFlipState { s with deck := deck1, matchCount := s.matchCount + 1 }
        if s1.matchCount = (DIFFICULTIES s1.difficulty).pairs then (endGame now s1, true, none)
        else (s1, false, none)
      else
        ({ s with lockBoard := true }, false, some mismatchDelayMs)
    | _, _ => (s, false, none)
  | _, _ => (s, false, none)

/-- The 900 ms `setTimeout` callback scheduled on a mismatch. It reads
`state.firstCard` / `state.secondCard` *live* at fire time (the closure
captures `state`, not the cards). `state.firstCard.classList` on a `null`
reference throws a `TypeError`: the boolean result is `true` when the callback
faults, and the returned state is whatever had been mutated before the throw. -/
def mismatchTimeout (s : GState) : GState × Bool :=
  match s.firstCard with
  | none => (s, true)
  | some i1 =>
    let s1 := { s with deck := modifyCard s.deck i1 (fun c => { c with flipped := false }) }
    match s1.secondCard with
    | none => (s1, true)
    | some i2 =>
      let s2 := { s1 with deck := modifyCard s1.deck i2 (fun c => { c with flipped := false }) }
      (resetFlipState s2, false)

/-- `flipCard(card)` for the card at deck index `idx`: the five silent-return
guards, then flip face-up; first selection is recorded and returns, a second
selection counts a move and resolves. Result as in `checkMatch`. -/
def flipCard (now : Int) (idx : Nat) (s : GState) : GState × Bool × Option Nat :=
  if !s.gameStarted then (s, false, none)
  else if s.paused then (s, false, none)
  else if s.lockBoard then (s, false, none)
  else
    match s.deck[idx]? with
    | none => (s, false, none)
    | some c =>
      if c.matched then (s, false, none)
      else if c.flipped then (s, false, none)
      else
        let s1 := { s with deck := modifyCard s.deck idx (fun k => { k with flipped := true }) }
        match s1.firstCard with
        | none => ({ s1 with firstCard := some idx }, false, none)
        | some _ =>
          checkMatch now { s1 with secondCard := some idx, moves := s1.moves + 1 }

/-- The board click listener: it drops the click while the board carries the
`is-disabled` class, otherwise calls `flipCard`. -/
def boardClick (now : Int) (idx : Nat) (s : GState) : GState × Bool × Option Nat :=
  if s.boardDisabled then (s, false, none) else flipCard now idx s

/-- `prepareGame`: fresh unstarted board. The deck comes from `generateDeck`
with the two oracles for its two shuffles. -/
def prepareGame (now : Int) (r1 r2 : Nat → RandDraw) (s : GState) : GState :=
  let s1 := { s with winShown := false }
  let s2 := resetTimer now s1
  let s3 := resetFlipState { s2 with moves := 0, matchCount := 0,
                                     gameStarted := false, paused := false }
  let s4 := { s3 with deck := renderBoard (generateDeck r1 r2 s3.difficulty) }
  { s4 with boardDisabled := true }

/-- `startGame`: same reset as `prepareGame` but active, board enabled, timer
running from zero. -/
def startGame (now : Int) (r1 r2 : Nat → RandDraw) (s : GState) : GState :=
  let s1 := { s with winShown := false }
  let s2 := resetTimer now s1
  let s3 := resetFlipState { s2 with moves := 0, matchCount := 0,
                                     gameStarted := true, paused := false }
  let s4 := { s3 with deck := renderBoard (generateDeck r1 r2 s3.difficulty) }
  let s5 := { s4 with boardDisabled := false }
  startTimer now s5

/-- The difficulty `change` listener: set the mode, then `prepareGame`. -/
def changeDifficulty (now : Int) (r1 r2 : Nat → RandDraw) (d : Difficulty) (s : GState) :
    GState :=
  prepareGame now r1 r2 { s with difficulty := d }

/-- `pauseGame`. -/
def pauseGame (now : Int) (s : GState) : GState :=
  if !s.gameStarted || s.paused then s
  else
    let s1 := stopTimer now { s with paused := true }
    { s1 with boardDisabled := true }

/-- `resumeGame`. -/
def resumeGame (now : Int) (s : GState) : GState :=
  if !s.gameStarted || !s.paused then s
  else startTimer now { s with paused := false, boardDisabled := false }

/-- Run a sequence of `flipCard` calls, counting how many of them triggered
`endGame`. -/
def runClicks (now : Int) : GState → List Nat → GState × Nat
  | s, [] => (s, 0)
  | s, idx :: rest =>
    let r := flipCard now idx s
    let t := runClicks now r.1 rest
    (t.1, (if r.2.1 then 1 else 0) + t.2)

/-! ## Shuffle lemmas -/

/-- Moving the overwritten element to the front: `l[m] :: l.set m x` is a
permutation of `x :: l`. -/
theorem get_cons_set_perm {α : Type} :
    ∀ (l : List α) (m : Nat) (h : m < l.length) (x : α),
      (l[m] :: l.set m x).Perm (x :: l)
  | a :: t, 0, _, x => by
      simpa using List.Perm.swap x a t
  | a :: t, m + 1, h, x => by
      have hm : m < t.length := by simpa using h
      have ih := get_cons_set_perm t m hm x
      have e : (a :: t)[m + 1] :: (a :: t).set (m + 1) x = t[m] :: a :: t.set m x := by
        simp
      rw [e]
      exact (List.Perm.swap a (t[m]) (t.set m x)).trans
        ((ih.cons a).trans (List.Perm.swap x a t))

/-- A swap is a permutation. -/
theorem listSwap_perm {α : Type} (l : List α) (i j : Nat) : (listSwap l i j).Perm l := by
  rcases hi : l[i]? with _ | a <;> rcases hj : l[j]? with _ | b <;>
    simp only [listSwap, hi, hj] <;> try exact List.Perm.refl l
  have hil : i < l.length := (List.getElem?_eq_some.mp hi).1
  have hjl : j < l.length := (List.getElem?_eq_some.mp hj).1
  have hia : l[i] = a := (List.getElem?_eq_some.mp hi).2
  have hjb : l[j] = b := (List.getElem?_eq_some.mp hj).2
  have hjl' : j < (l.set i b).length := by simpa using hjl
  have hsetj : (l.set i b)[j] = b := by
    rcases eq_or_ne i j with h | h
    · subst h; simp [List.getElem_set, hia]
    · simp [List.getElem_set, h, hjb]
  have h1 : ((l.set i b)[j] :: (l.set i b).set j a).Perm (a :: l.set i b) :=
    get_cons_set_perm (l.set i b) j hjl' a
  have h2 : (l[i] :: l.set i b).Perm (b :: l) := get_cons_set_perm l i hil b
  rw [hsetj] at h1
  rw [hia] at h2
  exact List.Perm.cons_inv (h1.trans h2)

/-- The shuffle loop permutes its input, whatever the draws. -/
theorem shuffleAux_perm {α : Type} (random : Nat → RandDraw) :
    ∀ (i : Nat) (l : List α) (k : Nat), (shuffleAux random l k i).Perm l
  | 0, l, _ => by simp [shuffleAux]
  | i + 1, l, k => by
      have ih := shuffleAux_perm random i
        (listSwap l (i + 1) (jsRandIndex (random k) (i + 1))) (k + 1)
      exact ih.trans (listSwap_perm l (i + 1) (jsRandIndex (random k) (i + 1)))

/-- `shuffle` permutes its input. -/
theorem shuffle_perm {α : Type} (random : Nat → RandDraw) (l : List α) :
    (shuffle random l).Perm l :=
  shuffleAux_perm random (l.length - 1) l 0

/-- A valid draw (`num < den`, i.e. a double in `[0,1)`) yields an index in
`[0, i]`. -/
theorem jsRandIndex_le (r : RandDraw) (i : Nat) (h : r.num < r.den) :
    jsRandIndex r i ≤ i := by
  unfold jsRandIndex
  have hd : 0 < r.den := Nat.lt_of_le_of_lt (Nat.zero_le _) h
  have hlt : r.num * (i + 1) < (i + 1) * r.den := by
    calc r.num * (i + 1) < r.den * (i + 1) :=
          Nat.mul_lt_mul_of_lt_of_le h (Nat.le_refl _) (Nat.succ_pos i)
      _ = (i + 1) * r.den := Nat.mul_comm _ _
  have := (Nat.div_lt_iff_lt_mul hd).mpr hlt
  omega

/-- C7: for every input array, `shuffle` produces a permutation of it (same
multiset before and after), and it iterates the index `i` from the last
position down to 1 swapping position `i` with `Math.floor(random * (i + 1))`,
which for any random draw in `[0,1)` is an index in `[0, i]`. -/
theorem shuffle_is_permutation :
    (∀ (α : Type) (random : Nat → RandDraw) (l : List α), (shuffle random l).Perm l) ∧
    (∀ (r : RandDraw) (i : Nat), r.num < r.den → jsRandIndex r i ≤ i) :=
  ⟨fun _ random l => shuffle_perm random l, fun r i h => jsRandIndex_le r i h⟩

/-- Witness for C7 at concrete inputs. -/
theorem shuffle_is_permutation_witness :
    (shuffle (fun _ => ⟨0, 1⟩) [(0 : Nat), 1, 2]).Perm [0, 1, 2] ∧
      jsRandIndex ⟨1, 2⟩ 5 ≤ 5 :=
  ⟨shuffle_is_permutation.1 Nat (fun _ => ⟨0, 1⟩) [0, 1, 2],
   shuffle_is_permutation.2 ⟨1, 2⟩ 5 (by decide)⟩

/-- The symbol names of the pool are pairwise distinct. -/
theorem gameData_names_nodup : (GAME_DATA.map CardItem.name).Nodup := by decide

/-- C2: for every difficulty and every pair of random streams, the generated
deck has length exactly `2 × pairCount`, and every symbol name occurring in it
occurs exactly twice. -/
theorem generateDeck_pairs (r1 r2 : Nat → RandDraw) (d : Difficulty) :
    (generateDeck r1 r2 d).length = 2 * (DIFFICULTIES d).pairs ∧
    ∀ nm ∈ (generateDeck r1 r2 d).map CardItem.name,
      ((generateDeck r1 r2 d).map CardItem.name).count nm = 2 := by
  have hpool : (shuffle r1 GAME_DATA).Perm GAME_DATA := shuffle_perm r1 GAME_DATA
  have hpairs : (DIFFICULTIES d).pairs ≤ GAME_DATA.length := by cases d <;> decide
  have hlenpool : (shuffle r1 GAME_DATA).length = GAME_DATA.length := hpool.length_eq
  set chosen := (shuffle r1 GAME_DATA).take (DIFFICULTIES d).pairs with hchosen
  have hlenchosen : chosen.length = (DIFFICULTIES d).pairs := by
    rw [hchosen, List.length_take, hlenpool]
    omega
  have hdeck : generateDeck r1 r2 d = shuffle r2 (chosen ++ chosen) := rfl
  have hperm : (generateDeck r1 r2 d).Perm (chosen ++ chosen) := by
    rw [hdeck]; exact shuffle_perm r2 (chosen ++ chosen)
  constructor
  · rw [hperm.length_eq, List.length_append, hlenchosen]
    omega
  · intro nm hmem
    have hpermmap : ((generateDeck r1 r2 d).map CardItem.name).Perm
        ((chosen ++ chosen).map CardItem.name) := hperm.map CardItem.name
    have hnodup : (chosen.map CardItem.name).Nodup := by
      have h1 : (chosen.map CardItem.name).Sublist ((shuffle r1 GAME_DATA).map CardItem.name) :=
        (List.take_sublist _ _).map CardItem.name
      have h2 : ((shuffle r1 GAME_DATA).map CardItem.name).Nodup :=
        ((hpool.map CardItem.name).nodup_iff).mpr gameData_names_nodup
      exact h2.sublist h1
    have hmem2 : nm ∈ chosen.map CardItem.name := by
      have := (hpermmap.mem_iff).mp hmem
      rw [List.map_append] at this
      exact (List.mem_append.mp this).elim id id
    have hcount1 : (chosen.map CardItem.name).count nm = 1 :=
      List.count_eq_one_of_mem hnodup hmem2
    rw [hpermmap.count_eq, List.map_append, List.count_append, hcount1]

/-- Witness for C2 at a concrete difficulty, stream and symbol name. -/
theorem generateDeck_pairs_witness :
    ((generateDeck (fun _ => ⟨0, 1⟩) (fun _ => ⟨0, 1⟩) Difficulty.easy).map
        CardItem.name).count "ML" = 2 :=
  (generateDeck_pairs (fun _ => ⟨0, 1⟩) (fun _ => ⟨0, 1⟩) Difficulty.easy).2 "ML" (by decide)

/-! ## Timer projection lemmas -/

theorem stopTimer_timerInterval (now : Int) (s : GState) :
    (stopTimer now s).timerInterval = false := by
  unfold stopTimer
  cases h : s.timerInterval <;> simp [h]

theorem stopTimer_of_no_interval (now : Int) (s : GState) (h : s.timerInterval = false) :
    stopTimer now s = s := by
  unfold stopTimer
  simp [h]

theorem stopTimer_paused (now : Int) (s : GState) : (stopTimer now s).paused = s.paused := by
  unfold stopTimer; split <;> rfl

theorem stopTimer_elapsed_of_interval (now : Int) (s : GState) (h : s.timerInterval = true) :
    (stopTimer now s).elapsedMs = s.elapsedMs + (now - s.startTime) := by
  unfold stopTimer
  simp [h]

theorem endGame_elapsedMs (now : Int) (s : GState) :
    (endGame now s).elapsedMs = (stopTimer now s).elapsedMs := rfl

theorem endGame_bestScores (now : Int) (s : GState) :
    (endGame now s).bestScores =
      setBest s.bestScores s.difficulty
        (maybeUpdateBest (getBest s.bestScores s.difficulty) s.moves).1 := by
  have h1 : (stopTimer now s).bestScores = s.bestScores := by
    unfold stopTimer; split <;> rfl
  have h2 : (stopTimer now s).difficulty = s.difficulty := by
    unfold stopTimer; split <;> rfl
  have h3 : (stopTimer now s).moves = s.moves := by
    unfold stopTimer; split <;> rfl
  simp only [endGame, h1, h2, h3]

/-! ## Best-score theorems -/

/-- C5: at end of game the stored best for the current difficulty is replaced
by the game's move count exactly when no best was stored or the move count is
strictly below the stored best value (numerically: below `num/den` for a
finite best — in particular below every `NaN` is false and below `Infinity`
is true); otherwise the record is unchanged. The last conjunct ties `endGame`
to the update function. -/
theorem maybeUpdateBestScore_spec (best : Option JNum) (m : Nat) :
    ((maybeUpdateBest best m).2 = true ↔
      best = none ∨ best = some (JNum.inf false) ∨
        ∃ nu de, best = some (JNum.val nu de) ∧ (m : Int) * (de : Int) < nu) ∧
    ((maybeUpdateBest best m).2 = true →
      (maybeUpdateBest best m).1 = some (JNum.val m 1)) ∧
    ((maybeUpdateBest best m).2 = false → (maybeUpdateBest best m).1 = best) ∧
    (∀ (now : Int) (s : GState),
      (endGame now s).bestScores =
        setBest s.bestScores s.difficulty
          (maybeUpdateBest (getBest s.bestScores s.difficulty) s.moves).1) := by
  refine ⟨?_, ?_, ?_, fun now s => endGame_bestScores now s⟩
  · rcases best with _ | b
    · simp [maybeUpdateBest]
    · rcases b with _ | neg | ⟨nu, de⟩
      · simp [maybeUpdateBest, jsLtBest]
      · cases neg <;> simp [maybeUpdateBest, jsLtBest]
      · by_cases h : (m : Int) * (de : Int) < nu
        · simp [maybeUpdateBest, jsLtBest, h]
          exact ⟨nu, de, ⟨rfl, rfl⟩, h⟩
        · simp [maybeUpdateBest, jsLtBest, h]
          exact le_of_not_lt h
  · rcases best with _ | b
    · simp [maybeUpdateBest]
    · rcases b with _ | neg | ⟨nu, de⟩
      · simp [maybeUpdateBest, jsLtBest]
      · cases neg <;> simp [maybeUpdateBest, jsLtBest]
      · by_cases h : (m : Int) * (de : Int) < nu <;> simp [maybeUpdateBest, jsLtBest, h]
  · rcases best with _ | b
    · simp [maybeUpdateBest]
    · rcases b with _ | neg | ⟨nu, de⟩
      · simp [maybeUpdateBest, jsLtBest]
      · cases neg <;> simp [maybeUpdateBest, jsLtBest]
      · by_cases h : (m : Int) * (de : Int) < nu <;> simp [maybeUpdateBest, jsLtBest, h]

/-- Witness for C5: a stored best of 10 beaten by 6 moves. -/
theorem maybeUpdateBestScore_spec_witness :
    (maybeUpdateBest (some (JNum.val 10 1)) 6).1 = some (JNum.val 6 1) := by
  have h := maybeUpdateBestScore_spec (some (JNum.val 10 1)) 6
  exact h.2.1 (h.1.mpr (Or.inr (Or.inr ⟨10, 1, rfl, by decide⟩)))

/-- `Number` on sample stored values: parseable non-digit strings load as real
numbers, unparsable ones as `NaN`. -/
theorem jsNumber_examples :
    jsNumber "12" = JNum.val 12 1 ∧
      jsNumber " 12 " = JNum.val 12 1 ∧
      jsNumber "-5" = JNum.val (-5) 1 ∧
      jsNumber "1e2" = JNum.val 100 1 ∧
      jsNumber "0x1F" = JNum.val 31 1 ∧
      jsNumber "2.5" = JNum.val 25 10 ∧
      jsNumber ".5" = JNum.val 5 10 ∧
      jsNumber "" = JNum.val 0 1 ∧
      jsNumber "Infinity" = JNum.inf false ∧
      jsNumber "-Infinity" = JNum.inf true ∧
      jsNumber "abc" = JNum.nan ∧
      jsNumber "12a" = JNum.nan ∧
      jsNumber "1_0" = JNum.nan ∧
      jsNumber "5n" = JNum.nan := by
  decide

/-- Counterexample to C6 as stated: the malformed stored value `"abc"` does
not load as the absent value (it loads as `NaN`), and a subsequently completed
game of 6 moves does not become the new best. -/
theorem loadStoredBest_malformed_counterexample :
    loadStoredBest (some "abc") ≠ none ∧
      (maybeUpdateBest (loadStoredBest (some "abc")) 6).2 = false ∧
      (maybeUpdateBest (loadStoredBest (some "abc")) 6).1 ≠ some (JNum.val 6 1) := by
  decide

/-- C6 as amended: a persisted best that `Number` cannot parse (`Number`
yields `NaN`, as for `"abc"`) is not treated as absent: it loads as `NaN`,
and with `NaN` stored the update condition is false for every move count, so
no subsequently completed game ever becomes the new best. Only a missing key
or the falsy empty string loads as absent. (A malformed-looking but parseable
value such as `" 12 "` or `"-5"` instead loads as its numeric value.) -/
theorem loadStoredBest_malformed_nan (s : String)
    (hne : s ≠ "") (hnan : jsNumber s = JNum.nan) :
    loadStoredBest (some s) = some JNum.nan ∧
      (∀ m, maybeUpdateBest (some JNum.nan) m = (some JNum.nan, false)) ∧
      loadStoredBest none = none ∧ loadStoredBest (some "") = none := by
  refine ⟨?_, fun m => by simp [maybeUpdateBest, jsLtBest], rfl, rfl⟩
  simp [loadStoredBest, hne, hnan]

/-- Witness for the amended C6 at the concrete stored value `"abc"`. -/
theorem loadStoredBest_malformed_nan_witness :
    loadStoredBest (some "abc") = some JNum.nan ∧
      maybeUpdateBest (some JNum.nan) 6 = (some JNum.nan, false) :=
  ⟨(loadStoredBest_malformed_nan "abc" (by decide) (by decide)).1,
   (loadStoredBest_malformed_nan "abc" (by decide) (by decide)).2.1 6⟩

/-! ## Guard no-op (C3) -/

/-- C3: `flipCard` leaves the whole game state unchanged — and neither ends
the game nor schedules a timeout — when the game is not started, or paused, or
the board is locked, or the clicked card is already matched or already
face-up. -/
theorem flipCard_noop (now : Int) (idx : Nat) (s : GState)
    (h : s.gameStarted = false ∨ s.paused = true ∨ s.lockBoard = true ∨
      (∃ c, s.deck[idx]? = some c ∧ (c.matched = true ∨ c.flipped = true))) :
    flipCard now idx s = (s, false, none) := by
  rcases h with h | h | h | ⟨c, hc, hcm⟩
  · simp [flipCard, h]
  · cases hg : s.gameStarted
    · simp [flipCard, hg]
    · simp [flipCard, hg, h]
  · cases hg : s.gameStarted
    · simp [flipCard, hg]
    · cases hp : s.paused
      · simp [flipCard, hg, hp, h]
      · simp [flipCard, hg, hp]
  · cases hg : s.gameStarted
    · simp [flipCard, hg]
    · cases hp : s.paused
      · cases hl : s.lockBoard
        · rcases hcm with hm | hf
          · simp [flipCard, hg, hp, hl, hc, hm]
          · cases hm2 : c.matched
            · simp [flipCard, hg, hp, hl, hc, hf, hm2]
            · simp [flipCard, hg, hp, hl, hc, hm2]
        · simp [flipCard, hg, hp, hl]
      · simp [flipCard, hg, hp]

/-- Witness for C3: a paused game ignores the click. -/
theorem flipCard_noop_witness :
    flipCard 0 1 { difficulty := Difficulty.easy,
                   deck := [⟨"A", "a", false, false⟩, ⟨"A", "a", false, false⟩],
                   moves := 0, matchCount := 0, firstCard := none, secondCard := none,
                   lockBoard := false, gameStarted := true, paused := true,
                   timerInterval := false, startTime := 0, elapsedMs := 0,
                   bestScores := ⟨none, none⟩, boardDisabled := true, winShown := false }
      = ({ difficulty := Difficulty.easy,
           deck := [⟨"A", "a", false, false⟩, ⟨"A", "a", false, false⟩],
           moves := 0, matchCount := 0, firstCard := none, secondCard := none,
           lockBoard := false, gameStarted := true, paused := true,
           timerInterval := false, startTime := 0, elapsedMs := 0,
           bestScores := ⟨none, none⟩, boardDisabled := true, winShown := false }, false,
         none) :=
  flipCard_noop 0 1 _ (Or.inr (Or.inl rfl))

/-! ## Pause / resume and timer -/

/-- C8: `pauseGame` is a no-op unless the game is started and unpaused, and
`resumeGame` is a no-op unless the game is started and paused; pausing folds
the running segment into `elapsedMs` and clears the interval; resuming keeps
the accumulated total, starts the new segment at the current wall-clock `now`
(so the displayed total at `now` equals the accumulated value) and reinstalls
the interval. -/
theorem pause_resume_spec (now : Int) (s : GState) :
    (s.gameStarted = false ∨ s.paused = true → pauseGame now s = s) ∧
    (s.gameStarted = false ∨ s.paused = false → resumeGame now s = s) ∧
    (s.gameStarted = true → s.paused = false →
      (pauseGame now s).paused = true ∧
      (pauseGame now s).timerInterval = false ∧
      (s.timerInterval = true →
        (pauseGame now s).elapsedMs = s.elapsedMs + (now - s.startTime)) ∧
      (s.timerInterval = false → (pauseGame now s).elapsedMs = s.elapsedMs)) ∧
    (s.gameStarted = true → s.paused = true →
      (resumeGame now s).paused = false ∧
      (resumeGame now s).timerInterval = true ∧
      (resumeGame now s).startTime = now ∧
      (resumeGame now s).elapsedMs = s.elapsedMs ∧
      tickTotalMs now (resumeGame now s) = s.elapsedMs) := by
  refine ⟨?_, ?_, ?_, ?_⟩
  · rintro (h | h) <;> simp [pauseGame, h]
  · rintro (h | h) <;> simp [resumeGame, h]
  · intro hg hp
    have hcond : (!s.gameStarted || s.paused) = false := by simp [hg, hp]
    refine ⟨?_, ?_, ?_, ?_⟩
    · simp [pauseGame, hcond, stopTimer_paused]
    · simp [pauseGame, hcond, stopTimer_timerInterval]
    · intro hi
      simp [pauseGame, hcond, stopTimer_elapsed_of_interval _ _ (show ({ s with paused := true } : GState).timerInterval = true from hi)]
    · intro hi
      simp [pauseGame, hcond, stopTimer_of_no_interval _ _ (show ({ s with paused := true } : GState).timerInterval = false from hi)]
  · intro hg hp
    have hcond : (!s.gameStarted || !s.paused) = false := by simp [hg, hp]
    refine ⟨?_, ?_, ?_, ?_, ?_⟩ <;>
      simp [resumeGame, hcond, startTimer, tickTotalMs]

/-- Witness for C8: pausing a running game folds the open segment. -/
theorem pause_resume_spec_witness :
    (pauseGame 500 { difficulty := Difficulty.easy, deck := [], moves := 0,
                     matchCount := 0, firstCard := none, secondCard := none,
                     lockBoard := false, gameStarted := true, paused := false,
                     timerInterval := true, startTime := 100, elapsedMs := 7,
                     bestScores := ⟨none, none⟩, boardDisabled := false,
                     winShown := false }).elapsedMs = 7 + (500 - 100) :=
  ((pause_resume_spec 500 _).2.2.1 rfl rfl).2.2.1 rfl

/-- C10: `stopTimer` with no interval installed is the identity (in particular
`elapsedMs` is untouched), stopping twice equals stopping once, and an
`endGame` arriving while already paused adds nothing to the elapsed total. -/
theorem stopTimer_idempotent_spec (now now2 : Int) (s : GState) :
    (s.timerInterval = false → stopTimer now s = s) ∧
    stopTimer now2 (stopTimer now s) = stopTimer now s ∧
    (s.gameStarted = true → s.paused = false →
      (endGame now2 (pauseGame now s)).elapsedMs = (pauseGame now s).elapsedMs) := by
  refine ⟨fun h => stopTimer_of_no_interval now s h, ?_, ?_⟩
  · exact stopTimer_of_no_interval now2 _ (stopTimer_timerInterval now s)
  · intro hg hp
    have hcond : (!s.gameStarted || s.paused) = false := by simp [hg, hp]
    have hpi : (pauseGame now s).timerInterval = false := by
      simp [pauseGame, hcond, stopTimer_timerInterval]
    rw [endGame_elapsedMs, stopTimer_of_no_interval _ _ hpi]

/-- Witness for C10: stopping an already-stopped timer changes nothing. -/
theorem stopTimer_idempotent_spec_witness :
    stopTimer 9 { difficulty := Difficulty.easy, deck := [], moves := 0,
                  matchCount := 0, firstCard := none, secondCard := none,
                  lockBoard := false, gameStarted := false, paused := false,
                  timerInterval := false, startTime := 3, elapsedMs := 42,
                  bestScores := ⟨none, none⟩, boardDisabled := true, winShown := false }
      = { difficulty := Difficulty.easy, deck := [], moves := 0,
          matchCount := 0, firstCard := none, secondCard := none,
          lockBoard := false, gameStarted := false, paused := false,
          timerInterval := false, startTime := 3, elapsedMs := 42,
          bestScores := ⟨none, none⟩, boardDisabled := true, winShown := false } :=
  (stopTimer_idempotent_spec 9 0 _).1 rfl

/-! ## Match-resolution lemmas -/

theorem modifyCard_getElem_self (l : List Card) (i : Nat) (f : Card → Card) :
    (modifyCard l i f)[i]? = (l[i]?).map f := by
  unfold modifyCard
  cases h : l[i]? with
  | none => rw [h]; rfl
  | some c =>
    have hi : i < l.length := (List.getElem?_eq_some.mp h).1
    rw [List.getElem?_set_self hi]
    rfl

theorem modifyCard_getElem_ne (l : List Card) (i j : Nat) (f : Card → Card) (h : i ≠ j) :
    (modifyCard l i f)[j]? = l[j]? := by
  unfold modifyCard
  cases hc : l[i]? with
  | none => rfl
  | some c => rw [List.getElem?_set_ne h]

theorem stopTimer_fields (now : Int) (s : GState) :
    (stopTimer now s).difficulty = s.difficulty ∧ (stopTimer now s).deck = s.deck ∧
    (stopTimer now s).moves = s.moves ∧ (stopTimer now s).matchCount = s.matchCount ∧
    (stopTimer now s).firstCard = s.firstCard ∧
    (stopTimer now s).secondCard = s.secondCard ∧
    (stopTimer now s).lockBoard = s.lockBoard ∧
    (stopTimer now s).gameStarted = s.gameStarted ∧
    (stopTimer now s).bestScores = s.bestScores := by
  unfold stopTimer
  split <;> simp

theorem endGame_gameStarted (now : Int) (s : GState) :
    (endGame now s).gameStarted = false := rfl

theorem endGame_fields (now : Int) (s : GState) :
    (endGame now s).deck = s.deck ∧ (endGame now s).matchCount = s.matchCount ∧
    (endGame now s).firstCard = s.firstCard ∧ (endGame now s).secondCard = s.secondCard ∧
    (endGame now s).lockBoard = s.lockBoard ∧ (endGame now s).moves = s.moves := by
  have h := stopTimer_fields now s
  exact ⟨h.2.1, h.2.2.2.1, h.2.2.2.2.1, h.2.2.2.2.2.1, h.2.2.2.2.2.2.1, h.2.2.1⟩

/-- Full characterisation of resolving a second selection: the state holds a
face-up first selection at `i`, and the card clicked at `j` is a fresh
face-down, unmatched card. Equal names: match branch (counter up, both cards
marked, slots cleared, unlocked, `endGame` exactly when the counter reaches
`pairCount`, nothing scheduled). Unequal names: board locked, a 900 ms
timeout scheduled, no `endGame`; firing the timeout then flips both selected
cards back down, clears the slots and unlocks, without faulting. -/
theorem flipCard_resolution_core (now : Int) (s : GState) (i j : Nat) (ci cj : Card)
    (hg : s.gameStarted = true) (hp : s.paused = false) (hl : s.lockBoard = false)
    (hf : s.firstCard = some i) (hdi : s.deck[i]? = some ci) (hdj : s.deck[j]? = some cj)
    (hcif : ci.flipped = true) (hcjm : cj.matched = false) (hcjf : cj.flipped = false) :
    (ci.name = cj.name →
      (flipCard now j s).1.matchCount = s.matchCount + 1 ∧
      ((flipCard now j s).1.deck[i]?).map Card.matched = some true ∧
      ((flipCard now j s).1.deck[j]?).map Card.matched = some true ∧
      (flipCard now j s).1.firstCard = none ∧
      (flipCard now j s).1.secondCard = none ∧
      (flipCard now j s).1.lockBoard = false ∧
      (flipCard now j s).2.2 = none ∧
      ((flipCard now j s).2.1 = true ↔
        s.matchCount + 1 = (DIFFICULTIES s.difficulty).pairs)) ∧
    (ci.name ≠ cj.name →
      (flipCard now j s).1.lockBoard = true ∧
      (flipCard now j s).2.2 = some mismatchDelayMs ∧
      (flipCard now j s).2.1 = false ∧
      (mismatchTimeout (flipCard now j s).1).2 = false ∧
      ((mismatchTimeout (flipCard now j s).1).1.deck[i]?).map Card.flipped = some false ∧
      ((mismatchTimeout (flipCard now j s).1).1.deck[j]?).map Card.flipped = some false ∧
      (mismatchTimeout (flipCard now j s).1).1.firstCard = none ∧
      (mismatchTimeout (flipCard now j s).1).1.secondCard = none ∧
      (mismatchTimeout (flipCard now j s).1).1.lockBoard = false) := by
  have hij : i ≠ j := by
    intro e
    subst e
    rw [hdi] at hdj
    injection hdj with h
    rw [← h] at hcjf
    rw [hcif] at hcjf
    exact Bool.noConfusion hcjf
  have key : flipCard now j s =
      checkMatch now
        { s with deck := modifyCard s.deck j (fun k => { k with flipped := true }),
                 secondCard := some j, moves := s.moves + 1 } := by
    unfold flipCard
    simp [hg, hp, hl, hdj, hcjm, hcjf, hf]
  have hdFi : (modifyCard s.deck j (fun k => { k with flipped := true }))[i]? = some ci := by
    rw [modifyCard_getElem_ne _ _ _ _ (Ne.symm hij)]
    exact hdi
  have hdFj : (modifyCard s.deck j (fun k => { k with flipped := true }))[j]?
      = some { cj with flipped := true } := by
    rw [modifyCard_getElem_self, hdj]
    rfl
  constructor
  · intro hname
    rw [key]
    unfold checkMatch
    simp only [hf, hdFi, hdFj]
    have hnm : ci.name = ({ cj with flipped := true } : Card).name := hname
    rw [if_pos hnm]
    simp only [resetFlipState]
    set deckM := modifyCard
        (modifyCard (modifyCard s.deck j (fun k => { k with flipped := true })) i
          (fun c => { c with matched := true })) j
        (fun c => { c with matched := true }) with hdeckM
    have hMi : deckM[i]?.map Card.matched = some true := by
      rw [hdeckM, modifyCard_getElem_ne _ _ _ _ (Ne.symm hij), modifyCard_getElem_self, hdFi]
      rfl
    have hMj : deckM[j]?.map Card.matched = some true := by
      rw [hdeckM, modifyCard_getElem_self, modifyCard_getElem_ne _ _ _ _ hij, hdFj]
      rfl
    split
    · refine ⟨?_, ?_, ?_, ?_, ?_, ?_, ?_, ?_⟩
      · exact (endGame_fields now _).2.1
      · rw [(endGame_fields now _).1]; exact hMi
      · rw [(endGame_fields now _).1]; exact hMj
      · exact (endGame_fields now _).2.2.1
      · exact (endGame_fields now _).2.2.2.1
      · exact (endGame_fields now _).2.2.2.2.1
      · rfl
      · simpa using ‹s.matchCount + 1 = (DIFFICULTIES s.difficulty).pairs›
    · refine ⟨rfl, hMi, hMj, rfl, rfl, rfl, rfl, ?_⟩
      simpa using ‹¬s.matchCount + 1 = (DIFFICULTIES s.difficulty).pairs›
  · intro hname
    rw [key]
    unfold checkMatch
    simp only [hf, hdFi, hdFj]
    have hnm : ¬ci.name = ({ cj with flipped := true } : Card).name := hname
    rw [if_neg hnm]
    refine ⟨rfl, rfl, rfl, ?_⟩
    unfold mismatchTimeout
    simp only [hf, resetFlipState]
    have h1 : (modifyCard (modifyCard s.deck j (fun k => { k with flipped := true })) i
        (fun c => { c with flipped := false }))[i]? = some { ci with flipped := false } := by
      rw [modifyCard_getElem_self, hdFi]
      rfl
    have h2 : (modifyCard (modifyCard s.deck j (fun k => { k with flipped := true })) i
        (fun c => { c with flipped := false }))[j]?
        = some { cj with flipped := true } := by
      rw [modifyCard_getElem_ne _ _ _ _ hij]
      exact hdFj
    refine ⟨by trivial, ?_, ?_, by trivial, by trivial, by trivial⟩
    · rw [modifyCard_getElem_ne _ _ _ _ (Ne.symm hij), h1]
      rfl
    · rw [modifyCard_getElem_self, h2]
      rfl

/-- C1: resolving a second selection with equal `pairKey` (name) increments
the match counter by exactly one, marks both selected cards matched, clears
both selection slots, and leaves input unlocked; with unequal names it locks
input and schedules the fixed 900 ms timeout, after which both selected cards
are face-down again, the slots are cleared and input is unlocked. -/
theorem checkMatch_resolution (now : Int) (s : GState) (i j : Nat) (ci cj : Card)
    (hg : s.gameStarted = true) (hp : s.paused = false) (hl : s.lockBoard = false)
    (hf : s.firstCard = some i) (hdi : s.deck[i]? = some ci) (hdj : s.deck[j]? = some cj)
    (hcif : ci.flipped = true) (hcjm : cj.matched = false) (hcjf : cj.flipped = false) :
    (ci.name = cj.name →
      (flipCard now j s).1.matchCount = s.matchCount + 1 ∧
      ((flipCard now j s).1.deck[i]?).map Card.matched = some true ∧
      ((flipCard now j s).1.deck[j]?).map Card.matched = some true ∧
      (flipCard now j s).1.firstCard = none ∧
      (flipCard now j s).1.secondCard = none ∧
      (flipCard now j s).1.lockBoard = false) ∧
    (ci.name ≠ cj.name →
      (flipCard now j s).1.lockBoard = true ∧
      (flipCard now j s).2.2 = some mismatchDelayMs ∧ mismatchDelayMs = 900 ∧
      (mismatchTimeout (flipCard now j s).1).2 = false ∧
      ((mismatchTimeout (flipCard now j s).1).1.deck[i]?).map Card.flipped = some false ∧
      ((mismatchTimeout (flipCard now j s).1).1.deck[j]?).map Card.flipped = some false ∧
      (mismatchTimeout (flipCard now j s).1).1.firstCard = none ∧
      (mismatchTimeout (flipCard now j s).1).1.secondCard = none ∧
      (mismatchTimeout (flipCard now j s).1).1.lockBoard = false) := by
  have h := flipCard_resolution_core now s i j ci cj hg hp hl hf hdi hdj hcif hcjm hcjf
  constructor
  · intro hn
    exact ⟨(h.1 hn).1, (h.1 hn).2.1, (h.1 hn).2.2.1, (h.1 hn).2.2.2.1,
      (h.1 hn).2.2.2.2.1, (h.1 hn).2.2.2.2.2.1⟩
  · intro hn
    exact ⟨(h.2 hn).1, (h.2 hn).2.1, rfl, (h.2 hn).2.2.2.1, (h.2 hn).2.2.2.2.1,
      (h.2 hn).2.2.2.2.2.1, (h.2 hn).2.2.2.2.2.2.1, (h.2 hn).2.2.2.2.2.2.2.1,
      (h.2 hn).2.2.2.2.2.2.2.2⟩

/-- A minimal mid-game state: first selection at index 0, face-up. -/
def demoMatchState : GState :=
  { difficulty := Difficulty.easy,
    deck := [⟨"A", "a", true, false⟩, ⟨"A", "a", false, false⟩, ⟨"B", "b", false, false⟩],
    moves := 0, matchCount := 0, firstCard := some 0, secondCard := none,
    lockBoard := false, gameStarted := true, paused := false,
    timerInterval := true, startTime := 0, elapsedMs := 0,
    bestScores := ⟨none, none⟩, boardDisabled := false, winShown := false }

/-- Witness for C1: a matching second selection on the demo state. -/
theorem checkMatch_resolution_witness :
    (flipCard 0 1 demoMatchState).1.matchCount = demoMatchState.matchCount + 1 ∧
      (flipCard 0 1 demoMatchState).1.lockBoard = false :=
  have h := checkMatch_resolution 0 demoMatchState 0 1 ⟨"A", "a", true, false⟩
    ⟨"A", "a", false, false⟩ rfl rfl rfl rfl rfl rfl rfl rfl rfl
  ⟨(h.1 rfl).1, (h.1 rfl).2.2.2.2.2⟩

/-! ## End-of-game is triggered at most once (C4) -/

theorem flipCard_not_started (now : Int) (idx : Nat) (s : GState)
    (h : s.gameStarted = false) : flipCard now idx s = (s, false, none) := by
  simp [flipCard, h]

theorem checkMatch_ended_not_started (now : Int) (s : GState) :
    (checkMatch now s).2.1 = true → (checkMatch now s).1.gameStarted = false := by
  intro h
  rcases hE : checkMatch now s with ⟨s2, flag, sched⟩
  rw [hE] at h
  unfold checkMatch at hE
  repeat' split at hE
  all_goals try (rw [ite_eq_iff] at hE; rcases hE with ⟨hc, hE⟩ | ⟨hc, hE⟩)
  all_goals try (simp_all [endGame_gameStarted]; done)
  all_goals
    (have h1 := congrArg Prod.fst hE
     dsimp only at h1 ⊢
     rw [← h1]
     exact endGame_gameStarted now _)

theorem flipCard_ended_not_started (now : Int) (idx : Nat) (s : GState) :
    (flipCard now idx s).2.1 = true → (flipCard now idx s).1.gameStarted = false := by
  intro h
  rcases hE : flipCard now idx s with ⟨s2, flag, sched⟩
  rw [hE] at h
  unfold flipCard at hE
  repeat' split at hE
  all_goals try (cases hfc : s.firstCard <;> rw [hfc] at hE <;> dsimp only at hE)
  all_goals first
    | (simp_all; done)
    | (have h1 := congrArg Prod.fst hE
       have h2 := congrArg (fun p : GState × Bool × Option Nat => p.2.1) hE
       dsimp only at h1 h2
       rw [← h1]
       apply checkMatch_ended_not_started
       rw [h2]
       exact h)

theorem runClicks_not_started (now : Int) (s : GState) (h : s.gameStarted = false) :
    ∀ evs : List Nat, runClicks now s evs = (s, 0)
  | [] => rfl
  | idx :: rest => by
      simp [runClicks, flipCard_not_started now idx s h,
        runClicks_not_started now s h rest]

theorem runClicks_count_le_one (now : Int) :
    ∀ (evs : List Nat) (s : GState), (runClicks now s evs).2 ≤ 1
  | [], s => by simp [runClicks]
  | idx :: rest, s => by
      cases hflag : (flipCard now idx s).2.1 with
      | false =>
        have ih := runClicks_count_le_one now rest (flipCard now idx s).1
        simp [runClicks, hflag]
        omega
      | true =>
        have hgs := flipCard_ended_not_started now idx s hflag
        have h0 := runClicks_not_started now _ hgs rest
        simp [runClicks, hflag, h0]

/-- C4: over any sequence of card clicks, `endGame` is triggered at most once
(and never again after the click that triggered it, since that click
deactivates the game); a resolving click triggers it exactly when it is a
match that makes the match counter reach the difficulty's `pairCount`. -/
theorem endGame_triggered_once (now : Int) :
    (∀ (s : GState) (evs : List Nat), (runClicks now s evs).2 ≤ 1) ∧
    (∀ (s : GState) (idx : Nat) (evs : List Nat), (flipCard now idx s).2.1 = true →
      (runClicks now (flipCard now idx s).1 evs).2 = 0) ∧
    (∀ (s : GState) (i j : Nat) (ci cj : Card),
      s.gameStarted = true → s.paused = false → s.lockBoard = false →
      s.firstCard = some i → s.deck[i]? = some ci → s.deck[j]? = some cj →
      ci.flipped = true → cj.matched = false → cj.flipped = false →
      ((flipCard now j s).2.1 = true ↔
        ci.name = cj.name ∧ s.matchCount + 1 = (DIFFICULTIES s.difficulty).pairs)) := by
  refine ⟨fun s evs => runClicks_count_le_one now evs s, ?_, ?_⟩
  · intro s idx evs h
    have h0 := runClicks_not_started now _ (flipCard_ended_not_started now idx s h) evs
    simp [h0]
  · intro s i j ci cj hg hp hl hf hdi hdj hcif hcjm hcjf
    have h := flipCard_resolution_core now s i j ci cj hg hp hl hf hdi hdj hcif hcjm hcjf
    by_cases hn : ci.name = cj.name
    · have hiff := (h.1 hn).2.2.2.2.2.2.2
      constructor
      · intro ht
        exact ⟨hn, hiff.mp ht⟩
      · intro hc
        exact hiff.mpr hc.2
    · have hfalse := (h.2 hn).2.2.1
      constructor
      · intro ht
        rw [hfalse] at ht
        exact Bool.noConfusion ht
      · intro hc
        exact absurd hc.1 hn

/-- Witness for C4 at the demo state. -/
theorem endGame_triggered_once_witness :
    (runClicks 0 demoMatchState [0, 1]).2 ≤ 1 ∧
      ((flipCard 0 1 demoMatchState).2.1 = true ↔
        (("A" : String) = "A" ∧
          demoMatchState.matchCount + 1 = (DIFFICULTIES demoMatchState.difficulty).pairs)) :=
  ⟨(endGame_triggered_once 0).1 demoMatchState [0, 1],
   (endGame_triggered_once 0).2.2 demoMatchState 0 1 ⟨"A", "a", true, false⟩
     ⟨"A", "a", false, false⟩ rfl rfl rfl rfl rfl rfl rfl rfl rfl⟩

/-! ## The unguarded mismatch-delay callback (C9) -/

/-- The page-load state: empty board before the initial `prepareGame`. -/
def initialState : GState :=
  { difficulty := Difficulty.easy, deck := [], moves := 0, matchCount := 0,
    firstCard := none, secondCard := none, lockBoard := false, gameStarted := false,
    paused := false, timerInterval := false, startTime := 0, elapsedMs := 0,
    bestScores := ⟨none, none⟩, boardDisabled := true, winShown := false }

/-- A fixed all-zeros random stream (every draw is `0/1 = 0`). -/
def constDraw : Nat → RandDraw := fun _ => ⟨0, 1⟩

/-- Start an easy game, flip cards 0 and 1 (which hold different symbols under
`constDraw`): the 900 ms mismatch timeout is now pending. -/
def pendingMismatchState : GState :=
  (flipCard 2 1 (flipCard 1 0 (startGame 0 constDraw constDraw initialState)).1).1

/-- Click Restart while the mismatch timeout is pending. -/
def restartedState : GState :=
  startGame 3 constDraw constDraw pendingMismatchState

/-- C9 is false of the code: the callback is not guarded. Concretely: with the
timeout pending (board locked, selections held), a restart clears the
selections; the callback then dereferences the cleared (`null`) selection and
faults. And if a card of the new game is flipped before the stale callback
fires, the callback flips that new card back face-down (mutating the new
game's deck) and still faults on the `null` second selection. -/
theorem mismatchTimeout_unguarded_after_reset :
    pendingMismatchState.lockBoard = true ∧
    pendingMismatchState.firstCard = some 0 ∧
    pendingMismatchState.secondCard = some 1 ∧
    restartedState.firstCard = none ∧
    (mismatchTimeout restartedState).2 = true ∧
    ((flipCard 4 2 restartedState).1.deck[2]?).map Card.flipped = some true ∧
    (mismatchTimeout (flipCard 4 2 restartedState).1).2 = true ∧
    ((mismatchTimeout (flipCard 4 2 restartedState).1).1.deck[2]?).map Card.flipped
      = some false := by
  decide
